import Mathlib

/-!
Verification of the in-memory packet-filter controller model from
`util/linuxfw/iptables_runner_test.go` (`fakeIPTables`), together with a
spec-modelled dual-stack runner operation (`AddHooks`).

The Go state is `map[string][]string`: a key `table ++ "/" ++ chain` maps to the
ordered rule list of that chain, each rule stored as its space-joined argument
string (`strings.Join(args, " ")`).  The map is embedded as an association
list; reachable states hold each key at most once, so first-match lookup,
replace-all update and remove-all deletion coincide with Go map semantics.
-/

/-- Go `strings.Join(args, " ")`: the stored text of one rule. -/
def joinArgs (args : List String) : String :=
  String.intercalate " " args

/-- Go `type fakeIPTables struct { n map[string][]string }`: field `n` maps a
`"table/chain"` key to that chain's ordered rules (space-joined strings). -/
structure FakeIPTables where
  n : List (String × List String)
deriving DecidableEq

/-- Go map read `n.n[k]` together with the `ok` flag: value of the first entry
whose key is `k`, if any. -/
def lookupL : List (String × List String) → String → Option (List String)
  | [], _ => none
  | p :: rest, k => if p.1 = k then some p.2 else lookupL rest k

/-- Go map write `n.n[k] = rs` for a key that is already present: replace the
entry for `k`. -/
def setL : List (String × List String) → String → List String → List (String × List String)
  | [], _, _ => []
  | p :: rest, k, rs => (if p.1 = k then (k, rs) else p) :: setL rest k rs

/-- Go `delete(n.n, k)`: drop the entry for key `k`. -/
def delL : List (String × List String) → String → List (String × List String)
  | [], _ => []
  | p :: rest, k => if p.1 = k then delL rest k else p :: delL rest k

/-- Read one chain of the fake state. -/
def lookupChain (s : FakeIPTables) (k : String) : Option (List String) :=
  lookupL s.n k

/-- Overwrite one (present) chain of the fake state. -/
def setChain (s : FakeIPTables) (k : String) (rs : List String) : FakeIPTables :=
  ⟨setL s.n k rs⟩

/-- Remove one chain of the fake state. -/
def delChain (s : FakeIPTables) (k : String) : FakeIPTables :=
  ⟨delL s.n k⟩

/-- Outcome of one fake-controller call.  `ok`/`err` carry the state of the
receiver after the call (the Go error paths never write to `n.n`, so they carry
the unchanged state); `crash` marks a Go runtime panic, which in this code can
only come from an out-of-range slice index. -/
inductive GoResult (α : Type) where
  | ok (state : FakeIPTables) (val : α)
  | err (state : FakeIPTables)
  | crash
deriving DecidableEq

/-- The Go insertion sequence `rules = append(rules, ""); copy(rules[pos:],
rules[pos-1:]); rules[pos-1] = rule` as a list insertion at index `i = pos-1`:
the new element ends up at index `i`, everything previously at index ≥ `i`
moves one place down. -/
def insertAt : List String → Nat → String → List String
  | rs, 0, r => r :: rs
  | [], _ + 1, r => [r]
  | x :: rest, i + 1, r => x :: insertAt rest i r

/-- The Go loop `for _, rule := range rules { if rule == strings.Join(args, " ")
... }`: whether some stored rule equals `x`. -/
def containsRule : List String → String → Bool
  | [], _ => false
  | r :: rest, x => if r = x then true else containsRule rest x

/-- The Go `Delete` loop: remove the first stored rule equal to `x`, or `none`
when no stored rule matches. -/
def removeFirst : List String → String → Option (List String)
  | [], _ => none
  | r :: rest, x => if r = x then some rest else (removeFirst rest x).map (r :: ·)

/-- `fakeIPTables.Insert`: on a known chain, reject `pos > len(rules)+1` with an
error; otherwise run the slice insertion, which panics when `pos ≤ 0` because
the slice expression `rules[pos-1:]` is out of range; unknown chains error. -/
def FakeIPTables.Insert (s : FakeIPTables) (table chain : String) (pos : Int)
    (args : List String) : GoResult Unit :=
  let k := table ++ "/" ++ chain
  match lookupChain s k with
  | some rules =>
      if (rules.length : Int) + 1 < pos then
        .err s
      else if 1 ≤ pos then
        .ok (setChain s k (insertAt rules (pos.toNat - 1) (joinArgs args))) ()
      else
        .crash
  | none => .err s

/-- `fakeIPTables.Append`: `Insert` at `len(n.n[k])+1`; a missing key reads as
the empty (nil) slice, so the computed position is then `1`. -/
def FakeIPTables.Append (s : FakeIPTables) (table chain : String)
    (args : List String) : GoResult Unit :=
  let k := table ++ "/" ++ chain
  s.Insert table chain ((((lookupChain s k).getD []).length : Int) + 1) args

/-- `fakeIPTables.Exists`: on a known chain, whether some stored rule equals the
space-join of `args`; on an unknown chain Go returns `(false, errExec)`. -/
def FakeIPTables.Exists (s : FakeIPTables) (table chain : String)
    (args : List String) : GoResult Bool :=
  match lookupChain s (table ++ "/" ++ chain) with
  | some rules => .ok s (containsRule rules (joinArgs args))
  | none => .err s

/-- `fakeIPTables.Delete`: remove the first stored rule equal to the space-join
of `args`; error when no stored rule matches or the chain is unknown. -/
def FakeIPTables.Delete (s : FakeIPTables) (table chain : String)
    (args : List String) : GoResult Unit :=
  let k := table ++ "/" ++ chain
  match lookupChain s k with
  | some rules =>
      match removeFirst rules (joinArgs args) with
      | some rules2 => .ok (setChain s k rules2) ()
      | none => .err s
  | none => .err s

/-- `fakeIPTables.NewChain`: error when the chain already exists, otherwise add
it with an empty rule list. -/
def FakeIPTables.NewChain (s : FakeIPTables) (table chain : String) : GoResult Unit :=
  let k := table ++ "/" ++ chain
  match lookupChain s k with
  | some _ => .err s
  | none => .ok ⟨s.n ++ [(k, [])]⟩ ()

/-- `fakeIPTables.ClearChain`: empty a known chain, error on an unknown one. -/
def FakeIPTables.ClearChain (s : FakeIPTables) (table chain : String) : GoResult Unit :=
  let k := table ++ "/" ++ chain
  match lookupChain s k with
  | some _ => .ok (setChain s k []) ()
  | none => .err s

/-- `fakeIPTables.DeleteChain`: error when the chain is non-empty or unknown,
otherwise remove it. -/
def FakeIPTables.DeleteChain (s : FakeIPTables) (table chain : String) : GoResult Unit :=
  let k := table ++ "/" ++ chain
  match lookupChain s k with
  | some rules =>
      if rules.length ≠ 0 then .err s
      else .ok (delChain s k) ()
  | none => .err s

/-- `newIPTables`: the six built-in chains, all empty. -/
def initialState : FakeIPTables :=
  ⟨[("filter/INPUT", []), ("filter/OUTPUT", []), ("filter/FORWARD", []),
    ("nat/PREROUTING", []), ("nat/OUTPUT", []), ("nat/POSTROUTING", [])]⟩

/-- Modelled from the spec: the dual-stack runner type `iptablesRunner` is not
under `src/` (only its test constructor `newFakeIPTablesRunner` is).  Per the
spec it owns one controller per address family plus per-family NAT-table
availability flags; the test constructor sets both flags to `true`. -/
structure IptablesRunner where
  ipt4 : FakeIPTables
  ipt6 : FakeIPTables
  v4NATAvailable : Bool
  v6NATAvailable : Bool
deriving DecidableEq

/-- Outcome of one runner-level call, mirroring `GoResult`. -/
inductive RunnerResult where
  | ok (r : IptablesRunner)
  | err (r : IptablesRunner)
  | crash
deriving DecidableEq

/-- Modelled from the spec: one `AddHooks` step, for a runner implementation
that is not under `src/`.  Insert, at position 1 of a built-in chain, the jump
rule into the corresponding owned chain; idempotent: when the hook already
exists, do not insert a duplicate; an existence-check failure is fatal. -/
def addHookRule (s : FakeIPTables) (table chain jump : String) : GoResult Unit :=
  match s.Exists table chain ["-j", jump] with
  | .ok s2 true => .ok s2 ()
  | .ok s2 false => s2.Insert table chain 1 ["-j", jump]
  | .err s2 => .err s2
  | .crash => .crash

/-- Modelled from the spec: `AddHooks` for one address family — hook the
generic input and forward chains, then the NAT post-routing chain unless the
family's NAT flag is false, stopping at the first fatal error. -/
def addHooksFamily (s : FakeIPTables) (natAvailable : Bool) : GoResult Unit :=
  match addHookRule s "filter" "INPUT" "ts-input" with
  | .ok s1 _ =>
      match addHookRule s1 "filter" "FORWARD" "ts-forward" with
      | .ok s2 _ =>
          if natAvailable then addHookRule s2 "nat" "POSTROUTING" "ts-postrouting"
          else .ok s2 ()
      | r => r
  | r => r

/-- Modelled from the spec: `iptablesRunner.AddHooks` fans out to the v4
controller and then the v6 controller, stopping at the first fatal error. -/
def IptablesRunner.AddHooks (r : IptablesRunner) : RunnerResult :=
  match addHooksFamily r.ipt4 r.v4NATAvailable with
  | .ok s4 _ =>
      match addHooksFamily r.ipt6 r.v6NATAvailable with
      | .ok s6 _ => .ok ⟨s4, s6, r.v4NATAvailable, r.v6NATAvailable⟩
      | .err s6 => .err ⟨s4, s6, r.v4NATAvailable, r.v6NATAvailable⟩
      | .crash => .crash
  | .err s4 => .err ⟨s4, r.ipt6, r.v4NATAvailable, r.v6NATAvailable⟩
  | .crash => .crash

/-- A fresh controller after the three owned Tailscale chains have been created
(`NewChain` appends each new chain with an empty rule list). -/
def tsChainsAdded : FakeIPTables :=
  ⟨initialState.n ++
    [("filter/ts-input", []), ("filter/ts-forward", []), ("nat/ts-postrouting", [])]⟩

/-- The runner of `newFakeIPTablesRunner` after `AddChains`: both controllers
hold the built-in chains plus the empty owned chains; both NAT flags true. -/
def runnerWithChains : IptablesRunner :=
  ⟨tsChainsAdded, tsChainsAdded, true, true⟩

/-! ### Helper lemmas about the state operations -/

theorem lookupL_setL_eq (l : List (String × List String)) (k : String)
    (rs rs' : List String) (h : lookupL l k = some rs) :
    lookupL (setL l k rs') k = some rs' := by
  induction l with
  | nil => simp [lookupL] at h
  | cons p rest ih =>
      by_cases hp : p.1 = k
      · simp [lookupL, setL, hp]
      · have h' : lookupL rest k = some rs := by
          simpa [lookupL, hp] using h
        simpa [lookupL, setL, hp] using ih h'

theorem lookupL_delL (l : List (String × List String)) (k : String) :
    lookupL (delL l k) k = none := by
  induction l with
  | nil => simp [delL, lookupL]
  | cons p rest ih =>
      by_cases hp : p.1 = k
      · simpa [delL, hp] using ih
      · simpa [delL, lookupL, hp] using ih

theorem lookupChain_setChain (s : FakeIPTables) (k : String) (rs rs' : List String)
    (h : lookupChain s k = some rs) :
    lookupChain (setChain s k rs') k = some rs' :=
  lookupL_setL_eq s.n k rs rs' h

theorem lookupChain_delChain (s : FakeIPTables) (k : String) :
    lookupChain (delChain s k) k = none :=
  lookupL_delL s.n k

theorem containsRule_iff (rs : List String) (x : String) :
    containsRule rs x = true ↔ x ∈ rs := by
  induction rs with
  | nil => simp [containsRule]
  | cons r rest ih =>
      by_cases hr : r = x
      · simp [containsRule, hr]
      · simp only [containsRule, hr, if_false, ih, List.mem_cons]
        constructor
        · exact fun h => Or.inr h
        · rintro (h | h)
          · exact absurd h.symm hr
          · exact h

theorem removeFirst_eq_none_iff (rs : List String) (x : String) :
    removeFirst rs x = none ↔ x ∉ rs := by
  induction rs with
  | nil => simp [removeFirst]
  | cons r rest ih =>
      by_cases hr : r = x
      · simp [removeFirst, hr]
      · simp only [removeFirst, hr, if_false, List.mem_cons]
        cases hrem : removeFirst rest x with
        | none =>
            have hnotin : x ∉ rest := ih.mp hrem
            constructor
            · intro _
              rintro (h1 | h1)
              · exact hr h1.symm
              · exact hnotin h1
            · intro _
              rfl
        | some rs2 =>
            have hin : x ∈ rest := by
              by_contra hx
              rw [ih.mpr hx] at hrem
              simp at hrem
            constructor
            · intro hmap
              simp at hmap
            · intro hmem
              exact absurd (Or.inr hin) hmem

theorem removeFirst_mem (rs : List String) (x : String) (h : x ∈ rs) :
    ∃ pre post, rs = pre ++ x :: post ∧ x ∉ pre ∧
      removeFirst rs x = some (pre ++ post) := by
  induction rs with
  | nil => cases h
  | cons r rest ih =>
      by_cases hr : r = x
      · refine ⟨[], rest, ?_, ?_, ?_⟩
        · simp [hr]
        · simp
        · simp [removeFirst, hr]
      · have hx : x ∈ rest := by
          rcases List.mem_cons.mp h with h1 | h1
          · exact absurd h1.symm hr
          · exact h1
        obtain ⟨pre, post, hsplit, hnot, hrem⟩ := ih hx
        refine ⟨r :: pre, post, ?_, ?_, ?_⟩
        · simp [hsplit]
        · simp only [List.mem_cons, not_or]
          exact ⟨fun hc => hr hc.symm, hnot⟩
        · simp [removeFirst, hr, hrem]

theorem insertAt_length (rs : List String) (i : Nat) (x : String) (h : i ≤ rs.length) :
    (insertAt rs i x).length = rs.length + 1 := by
  induction rs generalizing i with
  | nil =>
      have : i = 0 := Nat.le_zero.mp h
      subst this
      simp [insertAt]
  | cons r rest ih =>
      cases i with
      | zero => simp [insertAt]
      | succ j =>
          have hj : j ≤ rest.length := by simpa using h
          simp [insertAt, ih j hj]

theorem insertAt_getElem_self (rs : List String) (i : Nat) (x : String)
    (h : i ≤ rs.length) : (insertAt rs i x)[i]? = some x := by
  induction rs generalizing i with
  | nil =>
      have : i = 0 := Nat.le_zero.mp h
      subst this
      simp [insertAt]
  | cons r rest ih =>
      cases i with
      | zero => simp [insertAt]
      | succ j =>
          have hj : j ≤ rest.length := by simpa using h
          simp [insertAt, ih j hj]

theorem insertAt_getElem_lt (rs : List String) (i j : Nat) (x : String)
    (hj : j < i) (hi : i ≤ rs.length) : (insertAt rs i x)[j]? = rs[j]? := by
  induction rs generalizing i j with
  | nil =>
      have : i = 0 := Nat.le_zero.mp hi
      omega
  | cons r rest ih =>
      cases i with
      | zero => omega
      | succ i' =>
          cases j with
          | zero => simp [insertAt]
          | succ j' =>
              have hj' : j' < i' := by omega
              have hi' : i' ≤ rest.length := by simpa using hi
              simp [insertAt, ih i' j' hj' hi']

theorem insertAt_getElem_ge (rs : List String) (i j : Nat) (x : String)
    (hij : i ≤ j) : (insertAt rs i x)[j + 1]? = rs[j]? := by
  induction rs generalizing i j with
  | nil =>
      cases i with
      | zero => simp [insertAt]
      | succ i' => cases j with
          | zero => omega
          | succ j' => simp [insertAt]
  | cons r rest ih =>
      cases i with
      | zero => simp [insertAt]
      | succ i' =>
          cases j with
          | zero => omega
          | succ j' =>
              have : i' ≤ j' := by omega
              simp [insertAt, ih i' j' this]

theorem mem_insertAt (rs : List String) (i : Nat) (x : String) :
    x ∈ insertAt rs i x := by
  induction rs generalizing i with
  | nil =>
      cases i with
      | zero => simp [insertAt]
      | succ i' => simp [insertAt]
  | cons r rest ih =>
      cases i with
      | zero => simp [insertAt]
      | succ i' => simp [insertAt, ih i']

/-! ### Unfolding equations for the controller operations -/

theorem Insert_eq_of_lookup (s : FakeIPTables) (t c : String) (pos : Int)
    (args : List String) (rules : List String)
    (hk : lookupChain s (t ++ "/" ++ c) = some rules) :
    s.Insert t c pos args =
      if (rules.length : Int) + 1 < pos then .err s
      else if 1 ≤ pos then
        .ok (setChain s (t ++ "/" ++ c) (insertAt rules (pos.toNat - 1) (joinArgs args))) ()
      else .crash := by
  simp only [FakeIPTables.Insert, hk]

theorem Insert_eq_of_none (s : FakeIPTables) (t c : String) (pos : Int)
    (args : List String) (hk : lookupChain s (t ++ "/" ++ c) = none) :
    s.Insert t c pos args = .err s := by
  simp only [FakeIPTables.Insert, hk]

theorem Exists_eq_of_lookup (s : FakeIPTables) (t c : String) (args : List String)
    (rules : List String) (hk : lookupChain s (t ++ "/" ++ c) = some rules) :
    FakeIPTables.Exists s t c args = .ok s (containsRule rules (joinArgs args)) := by
  simp only [FakeIPTables.Exists, hk]

theorem Exists_eq_of_none (s : FakeIPTables) (t c : String) (args : List String)
    (hk : lookupChain s (t ++ "/" ++ c) = none) :
    FakeIPTables.Exists s t c args = .err s := by
  simp only [FakeIPTables.Exists, hk]

theorem Delete_eq_of_lookup (s : FakeIPTables) (t c : String) (args : List String)
    (rules : List String) (hk : lookupChain s (t ++ "/" ++ c) = some rules) :
    s.Delete t c args =
      match removeFirst rules (joinArgs args) with
      | some rules2 => .ok (setChain s (t ++ "/" ++ c) rules2) ()
      | none => .err s := by
  simp only [FakeIPTables.Delete, hk]

theorem Delete_eq_of_none (s : FakeIPTables) (t c : String) (args : List String)
    (hk : lookupChain s (t ++ "/" ++ c) = none) :
    s.Delete t c args = .err s := by
  simp only [FakeIPTables.Delete, hk]

theorem DeleteChain_eq_of_lookup (s : FakeIPTables) (t c : String)
    (rules : List String) (hk : lookupChain s (t ++ "/" ++ c) = some rules) :
    s.DeleteChain t c =
      if rules.length ≠ 0 then .err s else .ok (delChain s (t ++ "/" ++ c)) () := by
  simp only [FakeIPTables.DeleteChain, hk]

theorem DeleteChain_eq_of_none (s : FakeIPTables) (t c : String)
    (hk : lookupChain s (t ++ "/" ++ c) = none) :
    s.DeleteChain t c = .err s := by
  simp only [FakeIPTables.DeleteChain, hk]

theorem Append_eq (s : FakeIPTables) (t c : String) (args : List String) :
    s.Append t c args =
      s.Insert t c ((((lookupChain s (t ++ "/" ++ c)).getD []).length : Int) + 1) args :=
  rfl

/-! ### Claim theorems -/

/-- Claim C1: for every known (table, chain) pair and every position p with
1 ≤ p ≤ len(existing)+1, Insert succeeds and places the new rule at 1-based
position p of the chain, shifting every rule previously at position ≥ p down
by one while preserving their relative order; an immediately following
Exists(table, chain, args) returns (true, nil). -/
theorem insert_places_rule_at_position
    (s : FakeIPTables) (table chain : String) (args : List String)
    (rules : List String) (p : Nat)
    (hk : lookupChain s (table ++ "/" ++ chain) = some rules)
    (h1 : 1 ≤ p) (h2 : p ≤ rules.length + 1) :
    ∃ rules',
      s.Insert table chain (p : Int) args =
        .ok (setChain s (table ++ "/" ++ chain) rules') () ∧
      lookupChain (setChain s (table ++ "/" ++ chain) rules') (table ++ "/" ++ chain) =
        some rules' ∧
      rules'.length = rules.length + 1 ∧
      rules'[p - 1]? = some (joinArgs args) ∧
      (∀ i, i < p - 1 → rules'[i]? = rules[i]?) ∧
      (∀ i, p - 1 ≤ i → rules'[i + 1]? = rules[i]?) ∧
      FakeIPTables.Exists (setChain s (table ++ "/" ++ chain) rules') table chain args =
        .ok (setChain s (table ++ "/" ++ chain) rules') true := by
  have hp1 : p - 1 ≤ rules.length := by omega
  refine ⟨insertAt rules (p - 1) (joinArgs args), ?_, ?_, ?_, ?_, ?_, ?_, ?_⟩
  · have hnotgt : ¬ ((rules.length : Int) + 1 < (p : Int)) := by
      omega
    have hge1 : (1 : Int) ≤ (p : Int) := by exact_mod_cast h1
    have htn : ((p : Int)).toNat - 1 = p - 1 := by omega
    rw [Insert_eq_of_lookup s table chain (p : Int) args rules hk, if_neg hnotgt,
      if_pos hge1, htn]
  · exact lookupChain_setChain s (table ++ "/" ++ chain) rules _ hk
  · exact insertAt_length rules (p - 1) (joinArgs args) hp1
  · exact insertAt_getElem_self rules (p - 1) (joinArgs args) hp1
  · exact fun i hi => insertAt_getElem_lt rules (p - 1) i (joinArgs args) hi hp1
  · exact fun i hi => insertAt_getElem_ge rules (p - 1) i (joinArgs args) hi
  · have hlook := lookupChain_setChain s (table ++ "/" ++ chain) rules
      (insertAt rules (p - 1) (joinArgs args)) hk
    rw [Exists_eq_of_lookup _ table chain args _ hlook,
      (containsRule_iff _ _).mpr (mem_insertAt rules (p - 1) (joinArgs args))]

/-- Witness for C1: inserting at position 1 of the empty built-in chain
filter/INPUT of a fresh controller. -/
theorem insert_places_rule_at_position_witness :
    lookupChain initialState ("filter" ++ "/" ++ "INPUT") = some [] ∧ 1 ≤ 1 ∧
      1 ≤ List.length ([] : List String) + 1 ∧
      (∃ rules',
        initialState.Insert "filter" "INPUT" ((1 : Nat) : Int) ["x"] =
          .ok (setChain initialState ("filter" ++ "/" ++ "INPUT") rules') () ∧
        lookupChain (setChain initialState ("filter" ++ "/" ++ "INPUT") rules')
            ("filter" ++ "/" ++ "INPUT") = some rules' ∧
        rules'.length = List.length ([] : List String) + 1 ∧
        rules'[1 - 1]? = some (joinArgs ["x"]) ∧
        (∀ i, i < 1 - 1 → rules'[i]? = ([] : List String)[i]?) ∧
        (∀ i, 1 - 1 ≤ i → rules'[i + 1]? = ([] : List String)[i]?) ∧
        FakeIPTables.Exists (setChain initialState ("filter" ++ "/" ++ "INPUT") rules')
            "filter" "INPUT" ["x"] =
          .ok (setChain initialState ("filter" ++ "/" ++ "INPUT") rules') true) :=
  ⟨by decide, by decide, by decide,
    insert_places_rule_at_position initialState "filter" "INPUT" ["x"] [] 1
      (by decide) (by decide) (by decide)⟩

/-- Claim C2, amended: Exists(table, chain, args) returns (true, nil) iff the
chain holds a stored rule equal to the space-join of args, and (false, nil) iff
it holds none; rule equality is equality of the space-joined argument strings,
so two distinct argument lists with the same join are treated as the same rule;
for an unknown (table, chain) pair Exists returns an error, distinguishing a
rule being absent from the chain being absent. -/
theorem exists_iff_joined_member
    (s : FakeIPTables) (table chain : String) (args : List String) :
    (∀ rules, lookupChain s (table ++ "/" ++ chain) = some rules →
       ((FakeIPTables.Exists s table chain args = .ok s true ↔
           joinArgs args ∈ rules) ∧
        (FakeIPTables.Exists s table chain args = .ok s false ↔
           joinArgs args ∉ rules))) ∧
    (lookupChain s (table ++ "/" ++ chain) = none →
       FakeIPTables.Exists s table chain args = .err s) := by
  constructor
  · intro rules hk
    rw [Exists_eq_of_lookup s table chain args rules hk]
    simp only [GoResult.ok.injEq, true_and]
    have hmemiff := containsRule_iff rules (joinArgs args)
    constructor
    · exact hmemiff
    · rw [← hmemiff]
      simp
  · intro hk
    exact Exists_eq_of_none s table chain args hk

/-- Counterexample for C2 as stated: the rule inserted with the single-element
argument list ["a b"] is reported present for the distinct two-element argument
list ["a", "b"], because both join to the same string — two distinct argument
lists are treated as the same rule. -/
theorem exists_join_collision_counterexample :
    (["a b"] : List String) ≠ ["a", "b"] ∧
    joinArgs ["a b"] = joinArgs ["a", "b"] ∧
    initialState.Insert "filter" "INPUT" 1 ["a b"] =
      .ok (⟨[("filter/INPUT", ["a b"]), ("filter/OUTPUT", []), ("filter/FORWARD", []),
             ("nat/PREROUTING", []), ("nat/OUTPUT", []),
             ("nat/POSTROUTING", [])]⟩ : FakeIPTables) () ∧
    FakeIPTables.Exists
        (⟨[("filter/INPUT", ["a b"]), ("filter/OUTPUT", []), ("filter/FORWARD", []),
           ("nat/PREROUTING", []), ("nat/OUTPUT", []),
           ("nat/POSTROUTING", [])]⟩ : FakeIPTables) "filter" "INPUT" ["a", "b"] =
      .ok (⟨[("filter/INPUT", ["a b"]), ("filter/OUTPUT", []), ("filter/FORWARD", []),
             ("nat/PREROUTING", []), ("nat/OUTPUT", []),
             ("nat/POSTROUTING", [])]⟩ : FakeIPTables) true := by
  refine ⟨by decide, by decide, by decide, by decide⟩

/-- Witness for C2's amended theorem on the fresh controller's empty
filter/INPUT chain. -/
theorem exists_iff_joined_member_witness :
    lookupChain initialState ("filter" ++ "/" ++ "INPUT") = some [] ∧
      (FakeIPTables.Exists initialState "filter" "INPUT" ["x"] =
          .ok initialState true ↔ joinArgs ["x"] ∈ ([] : List String)) :=
  ⟨by decide,
    ((exists_iff_joined_member initialState "filter" "INPUT" ["x"]).1 [] (by decide)).1⟩

/-- Claim C3: Append(table, chain, args) is equivalent to Insert(table, chain,
len(existing)+1, args): the same call on a known chain, and the same error
outcome with the state unchanged on an unknown chain. -/
theorem append_is_insert_at_end
    (s : FakeIPTables) (table chain : String) (args : List String) :
    (∀ rules, lookupChain s (table ++ "/" ++ chain) = some rules →
       s.Append table chain args =
         s.Insert table chain ((rules.length : Int) + 1) args) ∧
    (lookupChain s (table ++ "/" ++ chain) = none →
       s.Append table chain args = .err s ∧
       ∀ pos, s.Insert table chain pos args = .err s) := by
  constructor
  · intro rules hk
    rw [Append_eq, hk, Option.getD_some]
  · intro hk
    constructor
    · rw [Append_eq, hk]
      exact Insert_eq_of_none s table chain _ args hk
    · exact fun pos => Insert_eq_of_none s table chain pos args hk

/-- Witness for C3 on the fresh controller's empty filter/INPUT chain. -/
theorem append_is_insert_at_end_witness :
    lookupChain initialState ("filter" ++ "/" ++ "INPUT") = some [] ∧
      initialState.Append "filter" "INPUT" ["x"] =
        initialState.Insert "filter" "INPUT"
          ((List.length ([] : List String) : Int) + 1) ["x"] :=
  ⟨by decide, (append_is_insert_at_end initialState "filter" "INPUT" ["x"]).1 [] (by decide)⟩

/-- Claim C4: for a known (table, chain) pair, Delete removes the first
(lowest-position) rule of the chain whose stored text matches the space-join of
args exactly, leaving all other rules in their original relative order; it
errors when no matching rule exists or when the pair is unknown. -/
theorem delete_removes_first_match
    (s : FakeIPTables) (table chain : String) (args : List String) :
    (∀ rules, lookupChain s (table ++ "/" ++ chain) = some rules →
       (joinArgs args ∈ rules →
          ∃ pre post, rules = pre ++ joinArgs args :: post ∧
            joinArgs args ∉ pre ∧
            s.Delete table chain args =
              .ok (setChain s (table ++ "/" ++ chain) (pre ++ post)) ()) ∧
       (joinArgs args ∉ rules → s.Delete table chain args = .err s)) ∧
    (lookupChain s (table ++ "/" ++ chain) = none →
       s.Delete table chain args = .err s) := by
  constructor
  · intro rules hk
    constructor
    · intro hmem
      obtain ⟨pre, post, hsplit, hnot, hrem⟩ := removeFirst_mem rules (joinArgs args) hmem
      refine ⟨pre, post, hsplit, hnot, ?_⟩
      rw [Delete_eq_of_lookup s table chain args rules hk, hrem]
    · intro hnot
      rw [Delete_eq_of_lookup s table chain args rules hk,
        (removeFirst_eq_none_iff rules (joinArgs args)).mpr hnot]
  · intro hk
    exact Delete_eq_of_none s table chain args hk

/-- Witness for C4: deleting the only rule of a one-rule chain. -/
theorem delete_removes_first_match_witness :
    lookupChain (⟨[("filter/INPUT", ["x"])]⟩ : FakeIPTables)
        ("filter" ++ "/" ++ "INPUT") = some ["x"] ∧
      joinArgs ["x"] ∈ (["x"] : List String) ∧
      (∃ pre post, (["x"] : List String) = pre ++ joinArgs ["x"] :: post ∧
        joinArgs ["x"] ∉ pre ∧
        FakeIPTables.Delete (⟨[("filter/INPUT", ["x"])]⟩ : FakeIPTables)
            "filter" "INPUT" ["x"] =
          .ok (setChain (⟨[("filter/INPUT", ["x"])]⟩ : FakeIPTables)
            ("filter" ++ "/" ++ "INPUT") (pre ++ post)) ()) :=
  ⟨by decide, by decide,
    ((delete_removes_first_match (⟨[("filter/INPUT", ["x"])]⟩ : FakeIPTables)
        "filter" "INPUT" ["x"]).1 ["x"] (by decide)).1 (by decide)⟩

/-- Claim C5: DeleteChain succeeds and removes the chain exactly when the chain
exists and holds zero rules; on a non-empty chain it errors with the state
unchanged (no rule is silently dropped), and on an absent chain it errors. -/
theorem deleteChain_requires_empty (s : FakeIPTables) (table chain : String) :
    (lookupChain s (table ++ "/" ++ chain) = some [] →
       s.DeleteChain table chain = .ok (delChain s (table ++ "/" ++ chain)) () ∧
       lookupChain (delChain s (table ++ "/" ++ chain)) (table ++ "/" ++ chain) = none) ∧
    (∀ r rest, lookupChain s (table ++ "/" ++ chain) = some (r :: rest) →
       s.DeleteChain table chain = .err s) ∧
    (lookupChain s (table ++ "/" ++ chain) = none →
       s.DeleteChain table chain = .err s) := by
  refine ⟨?_, ?_, ?_⟩
  · intro hk
    constructor
    · rw [DeleteChain_eq_of_lookup s table chain [] hk]
      simp
    · exact lookupChain_delChain s (table ++ "/" ++ chain)
  · intro r rest hk
    rw [DeleteChain_eq_of_lookup s table chain (r :: rest) hk]
    simp
  · intro hk
    exact DeleteChain_eq_of_none s table chain hk

/-- Witness for C5: deleting the empty owned chain filter/ts-input, and the
error on the non-empty chain of a one-rule state. -/
theorem deleteChain_requires_empty_witness :
    lookupChain tsChainsAdded ("filter" ++ "/" ++ "ts-input") = some [] ∧
      (FakeIPTables.DeleteChain tsChainsAdded "filter" "ts-input" =
          .ok (delChain tsChainsAdded ("filter" ++ "/" ++ "ts-input")) () ∧
        lookupChain (delChain tsChainsAdded ("filter" ++ "/" ++ "ts-input"))
          ("filter" ++ "/" ++ "ts-input") = none) ∧
      FakeIPTables.DeleteChain (⟨[("filter/INPUT", ["x"])]⟩ : FakeIPTables)
        "filter" "INPUT" = .err (⟨[("filter/INPUT", ["x"])]⟩ : FakeIPTables) :=
  ⟨by decide,
    (deleteChain_requires_empty tsChainsAdded "filter" "ts-input").1 (by decide),
    (deleteChain_requires_empty (⟨[("filter/INPUT", ["x"])]⟩ : FakeIPTables)
        "filter" "INPUT").2.1 "x" [] (by decide)⟩

/-- Claim C6, amended: Insert returns an error exactly when the (table, chain)
pair is unknown or position > len(existing)+1; for every known chain and
position with 1 ≤ position ≤ len(existing)+1 it succeeds; but for
position ≤ 0 on a known chain the call neither errors nor succeeds — the
validation does not reject it and the slice indexing panics. -/
theorem insert_error_conditions
    (s : FakeIPTables) (table chain : String) (pos : Int) (args : List String) :
    ((∃ m, s.Insert table chain pos args = .err m) ↔
       (lookupChain s (table ++ "/" ++ chain) = none ∨
        ∃ rules, lookupChain s (table ++ "/" ++ chain) = some rules ∧
          (rules.length : Int) + 1 < pos)) ∧
    (∀ rules, lookupChain s (table ++ "/" ++ chain) = some rules →
       1 ≤ pos → pos ≤ (rules.length : Int) + 1 →
       ∃ m, s.Insert table chain pos args = .ok m ()) ∧
    (∀ rules, lookupChain s (table ++ "/" ++ chain) = some rules →
       pos ≤ 0 → s.Insert table chain pos args = .crash) := by
  refine ⟨?_, ?_, ?_⟩
  · constructor
    · rintro ⟨m, hm⟩
      cases hk : lookupChain s (table ++ "/" ++ chain) with
      | none => exact Or.inl rfl
      | some rules =>
          refine Or.inr ⟨rules, rfl, ?_⟩
          rw [Insert_eq_of_lookup s table chain pos args rules hk] at hm
          by_cases hgt : (rules.length : Int) + 1 < pos
          · exact hgt
          · rw [if_neg hgt] at hm
            by_cases hge : 1 ≤ pos
            · rw [if_pos hge] at hm
              cases hm
            · rw [if_neg hge] at hm
              cases hm
    · rintro (hk | ⟨rules, hk, hgt⟩)
      · exact ⟨s, Insert_eq_of_none s table chain pos args hk⟩
      · refine ⟨s, ?_⟩
        rw [Insert_eq_of_lookup s table chain pos args rules hk, if_pos hgt]
  · intro rules hk hge hle
    refine ⟨setChain s (table ++ "/" ++ chain)
      (insertAt rules (pos.toNat - 1) (joinArgs args)), ?_⟩
    rw [Insert_eq_of_lookup s table chain pos args rules hk,
      if_neg (by omega), if_pos hge]
  · intro rules hk hle
    rw [Insert_eq_of_lookup s table chain pos args rules hk,
      if_neg (by omega), if_neg (by omega)]

/-- Counterexample for C6 as stated: position 0 does not exceed
len(existing)+1 and the chain filter/INPUT is known, yet the call does not
succeed (and does not return an error): it panics. -/
theorem insert_nonpositive_position_counterexample :
    lookupChain initialState ("filter" ++ "/" ++ "INPUT") = some [] ∧
    (0 : Int) ≤ (List.length ([] : List String) : Int) + 1 ∧
    initialState.Insert "filter" "INPUT" 0 ["x"] = .crash := by
  refine ⟨by decide, by decide, by decide⟩

/-- Witness for C6's amended theorem: an error at position 5 on the empty
known chain, and success at position 1. -/
theorem insert_error_conditions_witness :
    (∃ m, initialState.Insert "filter" "INPUT" 5 ["x"] = .err m) ∧
      (∃ m, initialState.Insert "filter" "INPUT" 1 ["x"] = .ok m ()) :=
  ⟨(insert_error_conditions initialState "filter" "INPUT" 5 ["x"]).1.mpr
      (Or.inr ⟨[], by decide, by decide⟩),
    (insert_error_conditions initialState "filter" "INPUT" 1 ["x"]).2.1 []
      (by decide) (by decide) (by decide)⟩

theorem NewChain_eq_of_lookup (s : FakeIPTables) (t c : String)
    (rules : List String) (hk : lookupChain s (t ++ "/" ++ c) = some rules) :
    s.NewChain t c = .err s := by
  simp only [FakeIPTables.NewChain, hk]

theorem NewChain_eq_of_none (s : FakeIPTables) (t c : String)
    (hk : lookupChain s (t ++ "/" ++ c) = none) :
    s.NewChain t c = .ok ⟨s.n ++ [(t ++ "/" ++ c, [])]⟩ () := by
  simp only [FakeIPTables.NewChain, hk]

theorem ClearChain_eq_of_lookup (s : FakeIPTables) (t c : String)
    (rules : List String) (hk : lookupChain s (t ++ "/" ++ c) = some rules) :
    s.ClearChain t c = .ok (setChain s (t ++ "/" ++ c) []) () := by
  simp only [FakeIPTables.ClearChain, hk]

theorem ClearChain_eq_of_none (s : FakeIPTables) (t c : String)
    (hk : lookupChain s (t ++ "/" ++ c) = none) :
    s.ClearChain t c = .err s := by
  simp only [FakeIPTables.ClearChain, hk]

/-- Claim C7: after the owned chains exist, AddHooks succeeds and installs
exactly one jump rule per relevant built-in chain (filter/INPUT,
filter/FORWARD, nat/POSTROUTING), each occupying position 1 — here the whole
chain content is exactly the one jump rule — in both the v4 and the v6
controller; and a second AddHooks call returns the same state (idempotency). -/
theorem addHooks_installs_once_at_top_idempotent :
    ∃ r1, runnerWithChains.AddHooks = RunnerResult.ok r1 ∧
      lookupChain r1.ipt4 "filter/INPUT" = some [joinArgs ["-j", "ts-input"]] ∧
      lookupChain r1.ipt4 "filter/FORWARD" = some [joinArgs ["-j", "ts-forward"]] ∧
      lookupChain r1.ipt4 "nat/POSTROUTING" = some [joinArgs ["-j", "ts-postrouting"]] ∧
      lookupChain r1.ipt6 "filter/INPUT" = some [joinArgs ["-j", "ts-input"]] ∧
      lookupChain r1.ipt6 "filter/FORWARD" = some [joinArgs ["-j", "ts-forward"]] ∧
      lookupChain r1.ipt6 "nat/POSTROUTING" = some [joinArgs ["-j", "ts-postrouting"]] ∧
      r1.AddHooks = RunnerResult.ok r1 := by
  refine ⟨⟨⟨[("filter/INPUT", ["-j ts-input"]), ("filter/OUTPUT", []),
             ("filter/FORWARD", ["-j ts-forward"]), ("nat/PREROUTING", []),
             ("nat/OUTPUT", []), ("nat/POSTROUTING", ["-j ts-postrouting"]),
             ("filter/ts-input", []), ("filter/ts-forward", []),
             ("nat/ts-postrouting", [])]⟩,
           ⟨[("filter/INPUT", ["-j ts-input"]), ("filter/OUTPUT", []),
             ("filter/FORWARD", ["-j ts-forward"]), ("nat/PREROUTING", []),
             ("nat/OUTPUT", []), ("nat/POSTROUTING", ["-j ts-postrouting"]),
             ("filter/ts-input", []), ("filter/ts-forward", []),
             ("nat/ts-postrouting", [])]⟩, true, true⟩, ?_⟩
  decide

/-- Claim C8, amended: rules are identified by (table, chain, joined argument
string), but duplicates are counted: inserting the same argument list twice at
position 1 yields a chain holding the rule twice (a state distinguishable from
a single insert), a single Delete removes only the first copy, and Exists still
returns true afterwards. -/
theorem insert_same_args_twice_duplicates
    (s : FakeIPTables) (table chain : String) (args : List String)
    (rules : List String)
    (hk : lookupChain s (table ++ "/" ++ chain) = some rules) :
    ∃ m1 m2 m3,
      s.Insert table chain 1 args = .ok m1 () ∧
      m1.Insert table chain 1 args = .ok m2 () ∧
      lookupChain m1 (table ++ "/" ++ chain) = some (joinArgs args :: rules) ∧
      lookupChain m2 (table ++ "/" ++ chain) =
        some (joinArgs args :: joinArgs args :: rules) ∧
      m1 ≠ m2 ∧
      m2.Delete table chain args = .ok m3 () ∧
      lookupChain m3 (table ++ "/" ++ chain) = some (joinArgs args :: rules) ∧
      FakeIPTables.Exists m3 table chain args = .ok m3 true := by
  have hlook1 : lookupChain (setChain s (table ++ "/" ++ chain) (joinArgs args :: rules))
      (table ++ "/" ++ chain) = some (joinArgs args :: rules) :=
    lookupChain_setChain s (table ++ "/" ++ chain) rules (joinArgs args :: rules) hk
  have hlook2 : lookupChain
      (setChain (setChain s (table ++ "/" ++ chain) (joinArgs args :: rules))
        (table ++ "/" ++ chain) (joinArgs args :: joinArgs args :: rules))
      (table ++ "/" ++ chain) = some (joinArgs args :: joinArgs args :: rules) :=
    lookupChain_setChain _ (table ++ "/" ++ chain) (joinArgs args :: rules)
      (joinArgs args :: joinArgs args :: rules) hlook1
  have hlook3 : lookupChain
      (setChain (setChain (setChain s (table ++ "/" ++ chain) (joinArgs args :: rules))
          (table ++ "/" ++ chain) (joinArgs args :: joinArgs args :: rules))
        (table ++ "/" ++ chain) (joinArgs args :: rules))
      (table ++ "/" ++ chain) = some (joinArgs args :: rules) :=
    lookupChain_setChain _ (table ++ "/" ++ chain)
      (joinArgs args :: joinArgs args :: rules) (joinArgs args :: rules) hlook2
  refine ⟨setChain s (table ++ "/" ++ chain) (joinArgs args :: rules),
    setChain (setChain s (table ++ "/" ++ chain) (joinArgs args :: rules))
      (table ++ "/" ++ chain) (joinArgs args :: joinArgs args :: rules),
    setChain (setChain (setChain s (table ++ "/" ++ chain) (joinArgs args :: rules))
        (table ++ "/" ++ chain) (joinArgs args :: joinArgs args :: rules))
      (table ++ "/" ++ chain) (joinArgs args :: rules),
    ?_, ?_, hlook1, hlook2, ?_, ?_, hlook3, ?_⟩
  · rw [Insert_eq_of_lookup s table chain 1 args rules hk,
      if_neg (by omega), if_pos (by omega),
      show (1 : Int).toNat - 1 = 0 from by decide]
    simp [insertAt]
  · rw [Insert_eq_of_lookup _ table chain 1 args (joinArgs args :: rules) hlook1,
      if_neg (by omega), if_pos (by omega),
      show (1 : Int).toNat - 1 = 0 from by decide]
    simp [insertAt]
  · intro he
    have h := hlook1
    rw [he, hlook2] at h
    have h2 := Option.some.inj h
    have h3 := congrArg List.length h2
    simp only [List.length_cons] at h3
    omega
  · rw [Delete_eq_of_lookup _ table chain args (joinArgs args :: joinArgs args :: rules)
      hlook2]
    simp [removeFirst]
  · rw [Exists_eq_of_lookup _ table chain args (joinArgs args :: rules) hlook3]
    simp [containsRule]

/-- Counterexample for C8 as stated: inserting ["x"] twice into filter/INPUT
of a fresh controller yields a state different from a single insert (the chain
holds the rule twice), and after a single Delete of that argument list Exists
still returns true. -/
theorem insert_twice_counterexample :
    initialState.Insert "filter" "INPUT" 1 ["x"] =
      .ok (⟨[("filter/INPUT", ["x"]), ("filter/OUTPUT", []), ("filter/FORWARD", []),
             ("nat/PREROUTING", []), ("nat/OUTPUT", []),
             ("nat/POSTROUTING", [])]⟩ : FakeIPTables) () ∧
    FakeIPTables.Insert
        (⟨[("filter/INPUT", ["x"]), ("filter/OUTPUT", []), ("filter/FORWARD", []),
           ("nat/PREROUTING", []), ("nat/OUTPUT", []),
           ("nat/POSTROUTING", [])]⟩ : FakeIPTables) "filter" "INPUT" 1 ["x"] =
      .ok (⟨[("filter/INPUT", ["x", "x"]), ("filter/OUTPUT", []), ("filter/FORWARD", []),
             ("nat/PREROUTING", []), ("nat/OUTPUT", []),
             ("nat/POSTROUTING", [])]⟩ : FakeIPTables) () ∧
    (⟨[("filter/INPUT", ["x"]), ("filter/OUTPUT", []), ("filter/FORWARD", []),
       ("nat/PREROUTING", []), ("nat/OUTPUT", []),
       ("nat/POSTROUTING", [])]⟩ : FakeIPTables) ≠
      (⟨[("filter/INPUT", ["x", "x"]), ("filter/OUTPUT", []), ("filter/FORWARD", []),
         ("nat/PREROUTING", []), ("nat/OUTPUT", []),
         ("nat/POSTROUTING", [])]⟩ : FakeIPTables) ∧
    FakeIPTables.Delete
        (⟨[("filter/INPUT", ["x", "x"]), ("filter/OUTPUT", []), ("filter/FORWARD", []),
           ("nat/PREROUTING", []), ("nat/OUTPUT", []),
           ("nat/POSTROUTING", [])]⟩ : FakeIPTables) "filter" "INPUT" ["x"] =
      .ok (⟨[("filter/INPUT", ["x"]), ("filter/OUTPUT", []), ("filter/FORWARD", []),
             ("nat/PREROUTING", []), ("nat/OUTPUT", []),
             ("nat/POSTROUTING", [])]⟩ : FakeIPTables) () ∧
    FakeIPTables.Exists
        (⟨[("filter/INPUT", ["x"]), ("filter/OUTPUT", []), ("filter/FORWARD", []),
           ("nat/PREROUTING", []), ("nat/OUTPUT", []),
           ("nat/POSTROUTING", [])]⟩ : FakeIPTables) "filter" "INPUT" ["x"] =
      .ok (⟨[("filter/INPUT", ["x"]), ("filter/OUTPUT", []), ("filter/FORWARD", []),
             ("nat/PREROUTING", []), ("nat/OUTPUT", []),
             ("nat/POSTROUTING", [])]⟩ : FakeIPTables) true := by
  refine ⟨by decide, by decide, by decide, by decide, by decide⟩

/-- Witness for C8's amended theorem on the fresh controller's empty
filter/INPUT chain. -/
theorem insert_same_args_twice_duplicates_witness :
    lookupChain initialState ("filter" ++ "/" ++ "INPUT") = some [] ∧
      (∃ m1 m2 m3,
        initialState.Insert "filter" "INPUT" 1 ["x"] = .ok m1 () ∧
        m1.Insert "filter" "INPUT" 1 ["x"] = .ok m2 () ∧
        lookupChain m1 ("filter" ++ "/" ++ "INPUT") = some (joinArgs ["x"] :: []) ∧
        lookupChain m2 ("filter" ++ "/" ++ "INPUT") =
          some (joinArgs ["x"] :: joinArgs ["x"] :: []) ∧
        m1 ≠ m2 ∧
        m2.Delete "filter" "INPUT" ["x"] = .ok m3 () ∧
        lookupChain m3 ("filter" ++ "/" ++ "INPUT") = some (joinArgs ["x"] :: []) ∧
        FakeIPTables.Exists m3 "filter" "INPUT" ["x"] = .ok m3 true) :=
  ⟨by decide,
    insert_same_args_twice_duplicates initialState "filter" "INPUT" ["x"] [] (by decide)⟩

/-- Claim C9: every controller operation is atomic on error — whenever Insert,
Append, Delete, NewChain, ClearChain, or DeleteChain returns an error, the
chain state it carries is exactly the pre-call state; and Exists returns its
input state unchanged in every case. -/
theorem error_leaves_state_unchanged
    (s : FakeIPTables) (table chain : String) (pos : Int) (args : List String) :
    (∀ m, s.Insert table chain pos args = .err m → m = s) ∧
    (∀ m, s.Append table chain args = .err m → m = s) ∧
    (∀ m, s.Delete table chain args = .err m → m = s) ∧
    (∀ m, s.NewChain table chain = .err m → m = s) ∧
    (∀ m, s.ClearChain table chain = .err m → m = s) ∧
    (∀ m, s.DeleteChain table chain = .err m → m = s) ∧
    (∀ m b, FakeIPTables.Exists s table chain args = .ok m b → m = s) ∧
    (∀ m, FakeIPTables.Exists s table chain args = .err m → m = s) := by
  have hIns : ∀ (pos' : Int) m, s.Insert table chain pos' args = .err m → m = s := by
    intro pos' m h
    cases hk : lookupChain s (table ++ "/" ++ chain) with
    | none =>
        rw [Insert_eq_of_none s table chain pos' args hk] at h
        injection h with h'
        exact h'.symm
    | some rules =>
        rw [Insert_eq_of_lookup s table chain pos' args rules hk] at h
        split_ifs at h
        injection h with h'
        exact h'.symm
  refine ⟨hIns pos, ?_, ?_, ?_, ?_, ?_, ?_, ?_⟩
  · intro m h
    rw [Append_eq] at h
    exact hIns _ m h
  · intro m h
    cases hk : lookupChain s (table ++ "/" ++ chain) with
    | none =>
        rw [Delete_eq_of_none s table chain args hk] at h
        injection h with h'
        exact h'.symm
    | some rules =>
        rw [Delete_eq_of_lookup s table chain args rules hk] at h
        cases hrem : removeFirst rules (joinArgs args) with
        | some rules2 =>
            simp only [hrem] at h
            cases h
        | none =>
            simp only [hrem] at h
            injection h with h'
            exact h'.symm
  · intro m h
    cases hk : lookupChain s (table ++ "/" ++ chain) with
    | none =>
        rw [NewChain_eq_of_none s table chain hk] at h
        cases h
    | some rules =>
        rw [NewChain_eq_of_lookup s table chain rules hk] at h
        injection h with h'
        exact h'.symm
  · intro m h
    cases hk : lookupChain s (table ++ "/" ++ chain) with
    | none =>
        rw [ClearChain_eq_of_none s table chain hk] at h
        injection h with h'
        exact h'.symm
    | some rules =>
        rw [ClearChain_eq_of_lookup s table chain rules hk] at h
        cases h
  · intro m h
    cases hk : lookupChain s (table ++ "/" ++ chain) with
    | none =>
        rw [DeleteChain_eq_of_none s table chain hk] at h
        injection h with h'
        exact h'.symm
    | some rules =>
        rw [DeleteChain_eq_of_lookup s table chain rules hk] at h
        by_cases hlen : rules.length ≠ 0
        · rw [if_pos hlen] at h
          injection h with h'
          exact h'.symm
        · rw [if_neg hlen] at h
          cases h
  · intro m b h
    cases hk : lookupChain s (table ++ "/" ++ chain) with
    | none =>
        rw [Exists_eq_of_none s table chain args hk] at h
        cases h
    | some rules =>
        rw [Exists_eq_of_lookup s table chain args rules hk] at h
        injection h with h1 h2
        exact h1.symm
  · intro m h
    cases hk : lookupChain s (table ++ "/" ++ chain) with
    | none =>
        rw [Exists_eq_of_none s table chain args hk] at h
        injection h with h'
        exact h'.symm
    | some rules =>
        rw [Exists_eq_of_lookup s table chain args rules hk] at h
        cases h

/-- Witness for C9: Insert on an unknown chain errors and the carried state is
the pre-call state. -/
theorem error_leaves_state_unchanged_witness :
    initialState.Insert "nosuch" "chain" 1 ["x"] = .err initialState ∧
      initialState = initialState :=
  ⟨by decide,
    (error_leaves_state_unchanged initialState "nosuch" "chain" 1 ["x"]).1
      initialState (by decide)⟩

/-- Claim C10: Insert's position validation checks only the upper bound — on a
known chain, under 1 ≤ position ≤ len(existing)+1 the call succeeds (all slice
indexing in bounds), whereas a call with position ≤ 0 is not rejected by the
validation check (its condition position > len+1 is false) and the slice index
position-1 falls outside the rule slice: the call panics. -/
theorem insert_lower_bound_unchecked
    (s : FakeIPTables) (table chain : String) (pos : Int) (args : List String)
    (rules : List String)
    (hk : lookupChain s (table ++ "/" ++ chain) = some rules) :
    (1 ≤ pos → pos ≤ (rules.length : Int) + 1 →
       ∃ m, s.Insert table chain pos args = .ok m ()) ∧
    (pos ≤ 0 →
       ¬ ((rules.length : Int) + 1 < pos) ∧
       s.Insert table chain pos args = .crash) := by
  constructor
  · intro hge hle
    refine ⟨setChain s (table ++ "/" ++ chain)
      (insertAt rules (pos.toNat - 1) (joinArgs args)), ?_⟩
    rw [Insert_eq_of_lookup s table chain pos args rules hk,
      if_neg (by omega), if_pos hge]
  · intro hle
    refine ⟨by omega, ?_⟩
    rw [Insert_eq_of_lookup s table chain pos args rules hk,
      if_neg (by omega), if_neg (by omega)]

/-- Witness for C10: success at position 1 and panic at position 0 on the known
empty chain filter/INPUT. -/
theorem insert_lower_bound_unchecked_witness :
    lookupChain initialState ("filter" ++ "/" ++ "INPUT") = some [] ∧
      (∃ m, initialState.Insert "filter" "INPUT" 1 ["x"] = .ok m ()) ∧
      (¬ ((List.length ([] : List String) : Int) + 1 < 0) ∧
        initialState.Insert "filter" "INPUT" 0 ["x"] = .crash) :=
  ⟨by decide,
    (insert_lower_bound_unchecked initialState "filter" "INPUT" 1 ["x"] []
        (by decide)).1 (by decide) (by decide),
    (insert_lower_bound_unchecked initialState "filter" "INPUT" 0 ["x"] []
        (by decide)).2 (by decide)⟩
